import Mathlib

/-!
Shallow embedding of `src/main.py` (a small interactive contact-book CLI) and
proofs about it.  Python strings are modelled as Lean `String`s (both are
sequences of Unicode code points, and Python's `len` agrees with
`String.length`); Python exceptions are modelled with `Except String` /
`Option`; the mutable `AddressBook` dict is modelled as a `List Record` in
insertion order (keys are the record names, which the code keeps unique), and
each handler threads the book state explicitly, returning the book as mutated
up to the point where an exception was raised, exactly as the in-place
mutations of the Python code behave.
-/

deriving instance DecidableEq for Except

namespace ContactBot

/-! ## Characters and digits -/

/-- Numeric value of an ASCII digit character (`c.toNat - 48`). -/
def digitVal (c : Char) : Nat := c.toNat - 48

/-- The ASCII digit character for `k` (values `≥ 9` all map to `'9'`; every
use in this file has `k ≤ 9`). -/
def digitChar (k : Nat) : Char :=
  match k with
  | 0 => '0'
  | 1 => '1'
  | 2 => '2'
  | 3 => '3'
  | 4 => '4'
  | 5 => '5'
  | 6 => '6'
  | 7 => '7'
  | 8 => '8'
  | _ => '9'

/-- Model of Python's per-character `str.isdigit` test.  Python returns `True`
for every character whose Unicode `Numeric_Type` is `Digit` or `Decimal`; this
model enumerates the ASCII digits together with the non-ASCII digit ranges
used in this development (Arabic-Indic `U+0660–U+0669`, extended Arabic-Indic
`U+06F0–U+06F9`, Devanagari `U+0966–U+096F`, fullwidth `U+FF10–U+FF19`, and
the superscripts `¹ ² ³`).  Python accepts further Unicode digit characters
not enumerated here, so negative facts about `Phone` construction are only
claimed for ASCII inputs. -/
def pyIsDigitChar (c : Char) : Bool :=
  c.isDigit
    || (0x660 ≤ c.toNat && c.toNat ≤ 0x669)
    || (0x6F0 ≤ c.toNat && c.toNat ≤ 0x6F9)
    || (0x966 ≤ c.toNat && c.toNat ≤ 0x96F)
    || (0xFF10 ≤ c.toNat && c.toNat ≤ 0xFF19)
    || c.toNat == 0xB2 || c.toNat == 0xB3 || c.toNat == 0xB9

/-- Model of Python's `str.isdigit`: `False` on the empty string, otherwise
true iff every character is a digit character. -/
def pyStrIsDigit (s : String) : Bool :=
  !s.data.isEmpty && s.data.all pyIsDigitChar

/-! ## `Phone` (main.py lines 28–33)

```python
class Phone(Field):
    def __init__(self, value):
        if not value.isdigit() or len(value) != 10:
            raise ValueError("Phone must contain 10 digits.")
        super().__init__(value)
```
A `Phone` object is identified with its `value` string. -/

/-- The `ValueError` message raised by `Phone.__init__`. -/
def phoneErr : String := "Phone must contain 10 digits."

/-- Model of `Phone.__init__`: succeeds with the unchanged value iff `value.isdigit()`
holds and the length is exactly 10. -/
def Phone.init (value : String) : Except String String :=
  if !pyStrIsDigit value || value.length != 10 then .error phoneErr
  else .ok value

/-! ## Calendar dates (Python `datetime.date`, proleptic Gregorian)

A date is a triple `(y, m, d)`.  Dates are compared and shifted through their
proleptic-Gregorian ordinal (`date.toordinal`: ordinal 1 = 0001-01-01), which
realises exactly Python's date order and `timedelta` arithmetic on valid
dates.  `date.weekday()` is `(ordinal + 6) % 7` with Monday = 0. -/

/-- Python `calendar`-style leap-year test used by `datetime.date`. -/
def isLeap (y : Nat) : Bool :=
  y % 4 == 0 && (y % 100 != 0 || y % 400 == 0)

/-- Number of days in month `m` of year `y` (as in `datetime._days_in_month`). -/
def daysInMonth (y m : Nat) : Nat :=
  if m = 2 then (if isLeap y then 29 else 28)
  else if m = 4 ∨ m = 6 ∨ m = 9 ∨ m = 11 then 30
  else 31

/-- Validity test of `datetime.date(y, m, d)` (which raises `ValueError`
outside `MINYEAR = 1`, `MAXYEAR = 9999`, `1 ≤ m ≤ 12`,
`1 ≤ d ≤ days_in_month`). -/
def validDate (y m d : Nat) : Bool :=
  1 ≤ y && y ≤ 9999 && 1 ≤ m && m ≤ 12 && 1 ≤ d && d ≤ daysInMonth y m

/-- Days in the months strictly before month `m` of a non-leap year. -/
def cumDays (m : Nat) : Nat :=
  match m with
  | 1 => 0
  | 2 => 31
  | 3 => 59
  | 4 => 90
  | 5 => 120
  | 6 => 151
  | 7 => 181
  | 8 => 212
  | 9 => 243
  | 10 => 273
  | 11 => 304
  | 12 => 334
  | _ => 365

/-- Model of `date(y, m, d).toordinal()`: days since 0000-12-31 in the proleptic
Gregorian calendar (ordinal 1 is 0001-01-01). -/
def toOrd (y m d : Nat) : Nat :=
  365 * (y - 1) + (y - 1) / 4 - (y - 1) / 100 + (y - 1) / 400
    + cumDays m + (if 3 ≤ m ∧ isLeap y then 1 else 0) + d

/-- Ordinal of `date.max` = 9999-12-31. -/
def maxOrd : Nat := toOrd 9999 12 31

/-- Model of `date.weekday()` for the date with ordinal `o`: Monday = 0 … Sunday = 6. -/
def weekdayNum (o : Nat) : Nat := (o + 6) % 7

/-- Model of `date.strftime("%A")` (C locale, as Python uses by default): the English
weekday name of the date with ordinal `o`. -/
def weekdayName (o : Nat) : String :=
  match weekdayNum o with
  | 0 => "Monday"
  | 1 => "Tuesday"
  | 2 => "Wednesday"
  | 3 => "Thursday"
  | 4 => "Friday"
  | 5 => "Saturday"
  | _ => "Sunday"

/-! ## `datetime.strptime(value, "%d.%m.%Y")` (used by `Birthday`)

CPython's `_strptime` compiles the format to the regular expression
`(3[0-1]|[1-2]\d|0[1-9]|[1-9]| [1-9])\.(1[0-2]|0[1-9]|[1-9])\.(\d\d\d\d)`,
requires it to consume the whole input, and then builds
`datetime(year, month, day)`, which validates the calendar date.  The parsers
below transcribe the regex alternatives in order; because every multi-digit
alternative is followed by a literal `'.'` in the format (or the end of
input), the regex engine's backtracking can never rescue a shorter
alternative, so the committed first-match parser below is equivalent.
The character classes `[0-9]`-style are ASCII-only in Python's `re` as well;
only the `\d` occurrences (the second digit of a `[1-2]\d` day and the four
year digits) also match non-ASCII Unicode decimal digits, which `int()`
then parses — `pyIsReDigit` / `pyDigitVal` model this over the Unicode
decimal-digit ranges used in this development (and Python accepts further
ranges not enumerated here, so exactness of negative facts is only claimed
for ASCII inputs). -/

/-- Model of Python's regex `\d` on a `str` pattern: any Unicode decimal
digit (category `Nd`).  Enumerated here: ASCII, Arabic-Indic `U+0660–U+0669`,
extended Arabic-Indic `U+06F0–U+06F9`, Devanagari `U+0966–U+096F`, fullwidth
`U+FF10–U+FF19`; exact on ASCII characters. -/
def pyIsReDigit (c : Char) : Bool :=
  c.isDigit
    || (0x660 ≤ c.toNat && c.toNat ≤ 0x669)
    || (0x6F0 ≤ c.toNat && c.toNat ≤ 0x6F9)
    || (0x966 ≤ c.toNat && c.toNat ≤ 0x96F)
    || (0xFF10 ≤ c.toNat && c.toNat ≤ 0xFF19)

/-- Model of `int()`'s per-character digit value, on the same ranges. -/
def pyDigitVal (c : Char) : Nat :=
  if 0x660 ≤ c.toNat && c.toNat ≤ 0x669 then c.toNat - 0x660
  else if 0x6F0 ≤ c.toNat && c.toNat ≤ 0x6F9 then c.toNat - 0x6F0
  else if 0x966 ≤ c.toNat && c.toNat ≤ 0x96F then c.toNat - 0x966
  else if 0xFF10 ≤ c.toNat && c.toNat ≤ 0xFF19 then c.toNat - 0xFF10
  else digitVal c

/-- The day field regex `3[0-1]|[1-2]\d|0[1-9]|[1-9]| [1-9]`, returning the
parsed value and the unconsumed input. -/
def parseDay : List Char → Option (Nat × List Char)
  | c1 :: c2 :: rest =>
    if c1 = '3' ∧ (c2 = '0' ∨ c2 = '1') then some (digitVal c1 * 10 + digitVal c2, rest)
    else if (c1 = '1' ∨ c1 = '2') ∧ pyIsReDigit c2 = true then some (digitVal c1 * 10 + pyDigitVal c2, rest)
    else if c1 = '0' ∧ ('1' ≤ c2 ∧ c2 ≤ '9') then some (digitVal c1 * 10 + digitVal c2, rest)
    else if '1' ≤ c1 ∧ c1 ≤ '9' then some (digitVal c1, c2 :: rest)
    else if c1 = ' ' ∧ ('1' ≤ c2 ∧ c2 ≤ '9') then some (digitVal c2, rest)
    else none
  | [c1] =>
    if '1' ≤ c1 ∧ c1 ≤ '9' then some (digitVal c1, []) else none
  | [] => none

/-- The month field regex `1[0-2]|0[1-9]|[1-9]`. -/
def parseMonth : List Char → Option (Nat × List Char)
  | c1 :: c2 :: rest =>
    if c1 = '1' ∧ (c2 = '0' ∨ c2 = '1' ∨ c2 = '2') then some (10 + digitVal c2, rest)
    else if c1 = '0' ∧ ('1' ≤ c2 ∧ c2 ≤ '9') then some (digitVal c2, rest)
    else if '1' ≤ c1 ∧ c1 ≤ '9' then some (digitVal c1, c2 :: rest)
    else none
  | [c1] =>
    if '1' ≤ c1 ∧ c1 ≤ '9' then some (digitVal c1, []) else none
  | [] => none

/-- The year field regex `\d\d\d\d`: exactly four digits. -/
def parseYear : List Char → Option (Nat × List Char)
  | c1 :: c2 :: c3 :: c4 :: rest =>
    if pyIsReDigit c1 = true ∧ pyIsReDigit c2 = true ∧ pyIsReDigit c3 = true
        ∧ pyIsReDigit c4 = true then
      some (pyDigitVal c1 * 1000 + pyDigitVal c2 * 100 + pyDigitVal c3 * 10 + pyDigitVal c4, rest)
    else none
  | _ => none

/-- The full-match regex stage of `strptime(value, "%d.%m.%Y")`: day, literal
dot, month, literal dot, four-digit year, end of input.  Returns
`(year, month, day)`. -/
def strptimeCore (cs : List Char) : Option (Nat × Nat × Nat) :=
  match parseDay cs with
  | some (d, '.' :: rest2) =>
    match parseMonth rest2 with
    | some (mo, '.' :: rest4) =>
      match parseYear rest4 with
      | some (y, []) => some (y, mo, d)
      | _ => none
    | _ => none
  | _ => none

/-- Model of `datetime.strptime(value, "%d.%m.%Y").date()`: the regex stage followed by
the `datetime(year, month, day)` calendar validation. -/
def strptimeDMY (s : String) : Option (Nat × Nat × Nat) :=
  match strptimeCore s.data with
  | some (y, mo, d) => if validDate y mo d then some (y, mo, d) else none
  | none => none

/-- Zero-padded two-digit rendering for `%d` / `%m` (as a char list). -/
def pad2l (n : Nat) : List Char := [digitChar (n / 10 % 10), digitChar (n % 10)]

/-- Four-digit rendering for `%Y` (as a char list).  Every use has
`n ≤ 9999`; CPython delegates `%Y` to the platform `strftime`, and for years
below 1000 some platforms omit the zero padding — the model adopts the
four-digit zero-padded form. -/
def pad4l (n : Nat) : List Char :=
  [digitChar (n / 1000 % 10), digitChar (n / 100 % 10), digitChar (n / 10 % 10),
    digitChar (n % 10)]

/-- Model of `date(y, m, d).strftime("%d.%m.%Y")`: the canonical `DD.MM.YYYY` string. -/
def canonicalDMY (y m d : Nat) : String :=
  ⟨pad2l d ++ ('.' :: (pad2l m ++ ('.' :: pad4l y)))⟩

/-! ## `Birthday` (main.py lines 36–46)

```python
class Birthday(Field):
    def __init__(self, value):
        try:
            dt = datetime.strptime(value, "%d.%m.%Y").date()
        except ValueError:
            raise ValueError("Invalid date format. Use DD.MM.YYYY")
        super().__init__(dt.strftime("%d.%m.%Y"))

    def as_date(self):
        return datetime.strptime(self.value, "%d.%m.%Y").date()
```
A `Birthday` object is identified with its stored `value` string. -/

/-- The `ValueError` message raised by `Birthday.__init__`. -/
def bdayErr : String := "Invalid date format. Use DD.MM.YYYY"

/-- Model of `Birthday.__init__`: parse with `strptime`, then store the
`strftime("%d.%m.%Y")` rendering of the parsed date. -/
def Birthday.init (value : String) : Except String String :=
  match strptimeDMY value with
  | some (y, mo, d) => .ok (canonicalDMY y mo d)
  | none => .error bdayErr

/-- Model of `Birthday.as_date`: re-parse the stored value. -/
def Birthday.as_date (value : String) : Option (Nat × Nat × Nat) :=
  strptimeDMY value

/-! ## `Name` and `Record` (main.py lines 19–25, 49–91)

A `Record` holds the validated name (`Name.value`, i.e. the stripped input),
the list of its phones' `value` strings (all phone comparisons and updates in
the code act on `.value`), and the optional birthday's stored `value`
string. -/

/-- Python's per-character whitespace test for `str.strip()` /`str.split()`,
restricted to the ASCII whitespace characters; Python also strips the rarer
non-ASCII Unicode whitespace, which never occurs in this development's
inputs (the CLI only ever passes whitespace-free tokens produced by
`str.split()`). -/
def pyIsSpace (c : Char) : Bool :=
  c == ' ' || c == '\t' || c == '\n' || c == '\r' || c == '\x0b' || c == '\x0c'

/-- Model of Python `str.strip()` with no argument: drop whitespace from both
ends. -/
def pyStrip (s : String) : String :=
  ⟨(((s.data.dropWhile pyIsSpace).reverse.dropWhile pyIsSpace).reverse)⟩

/-- The `ValueError` message raised by `Name.__init__`. -/
def nameErr : String := "Name cannot be empty."

/-- Model of `Name.__init__`: strip the value, fail if the result is empty. -/
def Name.init (value : String) : Except String String :=
  let v := pyStrip value
  if v = "" then .error nameErr else .ok v

/-- A contact record: `Record.__init__` plus the observable state of its
`phones` and `birthday` fields. -/
structure Record where
  name : String
  phones : List String
  birthday : Option String
  deriving DecidableEq, Repr

/-- Model of `Record.__init__(name)`: validates the name, starts with no phones and no
birthday. -/
def Record.init (name : String) : Except String Record :=
  match Name.init name with
  | .ok v => .ok ⟨v, [], none⟩
  | .error e => .error e

/-- Model of `Record.add_phone`: validate, then append. -/
def Record.add_phone (r : Record) (phone : String) : Except String Record :=
  match Phone.init phone with
  | .ok v => .ok { r with phones := r.phones ++ [v] }
  | .error e => .error e

/-- The loop of `Record.edit_phone` over the phone list: the first phone equal
to `old_phone` has its `value` overwritten with `Phone(new_phone).value` (so
validation of `new_phone` only happens once a match is found), and the loop
reports whether a replacement happened. -/
def editPhoneList (phones : List String) (old new : String) : Except String (Bool × List String) :=
  match phones with
  | [] => .ok (false, [])
  | p :: ps =>
    if p = old then
      match Phone.init new with
      | .ok v => .ok (true, v :: ps)
      | .error e => .error e
    else
      match editPhoneList ps old new with
      | .ok (b, ps') => .ok (b, p :: ps')
      | .error e => .error e

/-- Model of `Record.edit_phone(old_phone, new_phone)`. -/
def Record.edit_phone (r : Record) (old new : String) : Except String (Bool × Record) :=
  match editPhoneList r.phones old new with
  | .ok (b, ps) => .ok (b, { r with phones := ps })
  | .error e => .error e

/-- Model of `Record.add_birthday`: validate and overwrite the single birthday. -/
def Record.add_birthday (r : Record) (text : String) : Except String Record :=
  match Birthday.init text with
  | .ok v => .ok { r with birthday := some v }
  | .error e => .error e

/-! ## `AddressBook` (main.py lines 94–134)

The `UserDict` data, modelled as the list of records in insertion order; the
dict key of each entry is its record's `name` (the only writer,
`add_record`, uses `record.name.value` as the key).  Assigning to an
existing key keeps its position, a new key is appended — exactly Python's
dict semantics. -/

/-- The address book: records in dict insertion order. -/
abbrev AddressBook := List Record

/-- Model of `AddressBook.add_record`: `self.data[record.name.value] = record`. -/
def add_record : AddressBook → Record → AddressBook
  | [], r => [r]
  | x :: xs, r => if x.name = r.name then r :: xs else x :: add_record xs r

/-- Model of `AddressBook.find`: `self.data.get(name)`. -/
def findRec : AddressBook → String → Option Record
  | [], _ => none
  | r :: rs, name => if r.name = name then some r else findRec rs name

/-! ### `get_upcoming_birthdays` (main.py lines 105–134)

The result dict maps a weekday name to the names appended under it
(`result.setdefault(weekday, []).append(...)`), modelled as an association
list in key insertion order.  A raised exception (a stored birthday that no
longer parses, a `date(...)` reconstruction that fails — e.g. Feb 29 against
a non-leap year — or `today + timedelta(days=7)` overflowing `date.max`)
makes the whole call fail: `none`. -/

/-- Append `v` to the bucket of `k`, creating the bucket at the end if absent
(`dict.setdefault(k, []).append(v)`). -/
def setdefaultAppend : List (String × List String) → String → String → List (String × List String)
  | [], k, v => [(k, [v])]
  | (k', vs) :: rest, k, v =>
    if k' = k then (k', vs ++ [v]) :: rest else (k', vs) :: setdefaultAppend rest k v

/-- Bucket lookup in the result map. -/
def bucketLookup : List (String × List String) → String → Option (List String)
  | [], _ => none
  | (k', vs) :: rest, k => if k' = k then some vs else bucketLookup rest k

/-- Membership: `name` occurs in bucket `k` of the result map `m`. -/
def inBucket (m : List (String × List String)) (k name : String) : Prop :=
  ∃ vs, bucketLookup m k = some vs ∧ name ∈ vs

/-- The weekend shift applied to a congratulation ordinal: Saturday moves
forward 2 days, Sunday 1 day. -/
def weekendShift (o : Nat) : Nat :=
  if weekdayNum o = 5 then 2 else if weekdayNum o = 6 then 1 else 0

/-- The body of the `for` loop of `get_upcoming_birthdays` for one record:
given today's `(ty, tm, td)` and the accumulated result map, either skip the
record, extend the map, or fail (a raised exception). -/
def gubStep (ty tm td : Nat) (acc : List (String × List String)) (r : Record) :
    Option (List (String × List String)) :=
  match r.birthday with
  | none => some acc
  | some s =>
    match strptimeDMY s with
    | none => none
    | some (_, bm, bd) =>
      if validDate ty bm bd then
        match (if toOrd ty bm bd < toOrd ty tm td then
                (if validDate (ty + 1) bm bd then some (ty + 1) else none)
               else some ty) with
        | none => none
        | some oy =>
          let o := toOrd oy bm bd
          if toOrd ty tm td ≤ o ∧ o < toOrd ty tm td + 7 then
            some (setdefaultAppend acc (weekdayName (o + weekendShift o)) r.name)
          else some acc
      else none

/-- The `for` loop of `get_upcoming_birthdays`. -/
def gubGo (ty tm td : Nat) : List Record → List (String × List String) →
    Option (List (String × List String))
  | [], acc => some acc
  | r :: rs, acc =>
    match gubStep ty tm td acc r with
    | none => none
    | some acc' => gubGo ty tm td rs acc'

/-- Model of `AddressBook.get_upcoming_birthdays`, with `date.today()` passed in as
`(ty, tm, td)`.  `end_day = today + timedelta(days=7)` is computed before the
loop and raises `OverflowError` past `date.max`. -/
def get_upcoming_birthdays (book : AddressBook) (ty tm td : Nat) :
    Option (List (String × List String)) :=
  if toOrd ty tm td + 7 ≤ maxOrd then gubGo ty tm td book [] else none

/-! ## Persistence (main.py lines 139–158)

```python
def save_data(book, filename="addressbook.pkl"):
    with open(filename, "wb") as f:
        pickle.dump(book, f)

def load_data(filename="addressbook.pkl") -> AddressBook:
    try:
        with open(filename, "rb") as f:
            book = pickle.load(f)
            if isinstance(book, AddressBook):
                return book
            return AddressBook()
    except FileNotFoundError:
        return AddressBook()
```
The file system is modelled by the content found at the path.  `pickle` is
assumed faithful: unpickling a successfully pickled `AddressBook` yields an
equal book.  The `try` block catches only `FileNotFoundError`: an unreadable
file (`open` raising e.g. `PermissionError`) or content that `pickle.load`
cannot deserialize (`UnpicklingError` etc.) raises out of `load_data`. -/

/-- A value stored in a pickle file: either a pickled `AddressBook` or a
pickled value of any other type. -/
inductive PickledValue where
  | book (b : AddressBook)
  | other

/-- What the persistence path can hold. -/
inductive FileContent where
  /-- no file at the path (`open` raises `FileNotFoundError`) -/
  | absent
  /-- a file that cannot be opened (`open` raises e.g. `PermissionError`) -/
  | unreadable
  /-- a file whose bytes `pickle.load` cannot deserialize -/
  | corrupt
  /-- a file holding a successfully pickled value -/
  | pickled (v : PickledValue)

/-- Model of `save_data`: overwrite the path with a pickle of the whole book. -/
def save_data (book : AddressBook) : FileContent :=
  .pickled (.book book)

/-- Model of `load_data`: `.ok` is a returned book, `.error` an uncaught exception. -/
def load_data : FileContent → Except String AddressBook
  | .absent => .ok []
  | .unreadable => .error "PermissionError"
  | .corrupt => .error "UnpicklingError"
  | .pickled (.book b) => .ok b
  | .pickled .other => .ok []

/-! ## Command handlers (main.py lines 163–290)

`input_error` converts a raised `KeyError` to `"Contact not found."`, a
`ValueError` to its own message, and an `IndexError` to
`"Enter the argument for the command"`; that conversion is fused into each
handler model below.  Star-unpacking `a, b, *_ = args` with too few elements
raises `ValueError("not enough values to unpack (expected at least N, got
K)")` — not `IndexError` — so the `IndexError` branch's message is what the
claims quote, but the unpack message is what the user sees.  Each handler
returns the book as mutated so far together with the printed string. -/

/-- The message of the `ValueError` raised by `a, b, *rest = args` when
`args` is too short. -/
def unpackMsg (need got : Nat) : String :=
  "not enough values to unpack (expected at least " ++ toString need ++ ", got "
    ++ toString got ++ ")"

/-- The string returned by `input_error` for a raised `IndexError` (note: no
trailing period in the source). -/
def indexErrMsg : String := "Enter the argument for the command"

/-- The string returned by `input_error` for a raised `KeyError`. -/
def keyErrMsg : String := "Contact not found."

/-- Model of handler `add_contact(args, book)`. -/
def add_contact : List String → AddressBook → AddressBook × String
  | name :: phone :: _, book =>
    (match findRec book name with
     | some r =>
       if phone ≠ "" then
         match r.add_phone phone with
         | .ok r' => (add_record book r', "Contact updated.")
         | .error e => (book, e)
       else (book, "Contact updated.")
     | none =>
       match Record.init name with
       | .error e => (book, e)
       | .ok r =>
         let book' := add_record book r
         if phone ≠ "" then
           match r.add_phone phone with
           | .ok r' => (add_record book' r', "Contact added.")
           | .error e => (book', e)
         else (book', "Contact added."))
  | args, book => (book, unpackMsg 2 args.length)

/-- Model of handler `change_contact(args, book)`. -/
def change_contact : List String → AddressBook → AddressBook × String
  | name :: old :: new :: _, book =>
    (match findRec book name with
     | none => (book, keyErrMsg)
     | some r =>
       match r.edit_phone old new with
       | .error e => (book, e)
       | .ok (true, r') => (add_record book r', "Contact updated.")
       | .ok (false, _) => (book, "Old phone not found."))
  | args, book => (book, unpackMsg 3 args.length)

/-- Model of handler `show_phone(args, book)`. -/
def show_phone : List String → AddressBook → AddressBook × String
  | name :: _, book =>
    (match findRec book name with
     | none => (book, keyErrMsg)
     | some r =>
       if r.phones.isEmpty then (book, "No phones.")
       else (book, String.intercalate "; " r.phones))
  | args, book => (book, unpackMsg 1 args.length)

/-- Model of handler `add_birthday(args, book)`. -/
def add_birthday : List String → AddressBook → AddressBook × String
  | name :: text :: _, book =>
    (match findRec book name with
     | some r =>
       match r.add_birthday text with
       | .ok r' => (add_record book r', "Birthday added.")
       | .error e => (book, e)
     | none =>
       match Record.init name with
       | .error e => (book, e)
       | .ok r =>
         let book' := add_record book r
         match r.add_birthday text with
         | .ok r' => (add_record book' r', "Birthday added.")
         | .error e => (book', e))
  | args, book => (book, unpackMsg 2 args.length)

/-- Model of handler `show_birthday(args, book)`. -/
def show_birthday : List String → AddressBook → AddressBook × String
  | name :: _, book =>
    (match findRec book name with
     | none => (book, keyErrMsg)
     | some r =>
       match r.birthday with
       | some b => (book, b)
       | none => (book, "No birthday set."))
  | args, book => (book, unpackMsg 1 args.length)

/-! # Helper lemmas -/

theorem length_eq_data_length (s : String) : s.length = s.data.length := rfl

/-- A successfully constructed phone has exactly 10 characters. -/
theorem Phone.init_length {p v : String} (h : Phone.init p = .ok v) : p.length = 10 := by
  unfold Phone.init at h
  by_cases hc : (!pyStrIsDigit p || p.length != 10) = true
  · rw [if_pos hc] at h; cases h
  · have h2 : (p.length != 10) = false := (Bool.or_eq_false_iff.mp (Bool.eq_false_iff.mpr hc)).2
    simpa using h2

/-- A successfully constructed phone is returned unchanged. -/
theorem Phone.init_ok_eq {p v : String} (h : Phone.init p = .ok v) : v = p := by
  unfold Phone.init at h
  by_cases hc : (!pyStrIsDigit p || p.length != 10) = true
  · rw [if_pos hc] at h; cases h
  · rw [if_neg hc] at h; cases h; rfl

/-- Construction of `Name` / `Record` on a whitespace-free, non-empty name. -/
theorem Record.init_token {name : String} (hstrip : pyStrip name = name)
    (hname : name ≠ "") : Record.init name = .ok ⟨name, [], none⟩ := by
  unfold Record.init Name.init
  rw [hstrip, if_neg hname]

theorem findRec_cons_ne {x : Record} {xs : AddressBook} {n : String} (h : x.name ≠ n) :
    findRec (x :: xs) n = findRec xs n := by
  simp only [findRec]
  rw [if_neg h]

theorem findRec_none_head {x : Record} {xs : AddressBook} {n : String}
    (h : findRec (x :: xs) n = none) : x.name ≠ n ∧ findRec xs n = none := by
  simp only [findRec] at h
  by_cases hx : x.name = n
  · rw [if_pos hx] at h; cases h
  · rw [if_neg hx] at h; exact ⟨hx, h⟩

/-- Looking a key up past a prefix that does not contain it. -/
theorem findRec_append {book : AddressBook} (l : AddressBook) {n : String}
    (h : findRec book n = none) : findRec (book ++ l) n = findRec l n := by
  induction book with
  | nil => rfl
  | cons x xs ih =>
    obtain ⟨hx, hxs⟩ := findRec_none_head h
    rw [List.cons_append, findRec_cons_ne hx]
    exact ih hxs

/-- Inserting a key absent from a prefix leaves the prefix untouched. -/
theorem add_record_append {book : AddressBook} (l : AddressBook) {r : Record}
    (h : findRec book r.name = none) : add_record (book ++ l) r = book ++ add_record l r := by
  induction book with
  | nil => rfl
  | cons x xs ih =>
    obtain ⟨hx, hxs⟩ := findRec_none_head h
    rw [List.cons_append]
    simp only [add_record]
    rw [if_neg hx, ih hxs, List.cons_append]

/-- Inserting an absent key appends the record. -/
theorem add_record_eq_append {book : AddressBook} {r : Record}
    (h : findRec book r.name = none) : add_record book r = book ++ [r] := by
  have := add_record_append (l := []) h
  rw [List.append_nil] at this
  exact this

/-! # Claim C2: `Phone` validation -/

/-- C2 (counterexample): the claim says Phone construction fails for every
string that is not 10 ASCII decimal digits, but a string of 10 Arabic-Indic
digits — none of which is an ASCII digit — is accepted by
`value.isdigit() and len(value) == 10` and stored unchanged. -/
theorem phone_accepts_nonascii_digits :
    Phone.init "٠١٢٣٤٥٦٧٨٩" = .ok "٠١٢٣٤٥٦٧٨٩"
      ∧ "٠١٢٣٤٥٦٧٨٩".length = 10
      ∧ ∀ c ∈ "٠١٢٣٤٥٦٧٨٩".data, c.isDigit = false := by
  refine ⟨by decide, by decide, by decide⟩

/-- An ASCII character is a Python digit iff it is an ASCII digit. -/
theorem pyIsDigitChar_ascii {c : Char} (h : c.toNat < 128) :
    pyIsDigitChar c = c.isDigit := by
  unfold pyIsDigitChar
  have e1 : decide (0x660 ≤ c.toNat) = false := decide_eq_false (by omega)
  have e2 : decide (0x6F0 ≤ c.toNat) = false := decide_eq_false (by omega)
  have e3 : decide (0x966 ≤ c.toNat) = false := decide_eq_false (by omega)
  have e4 : decide (0xFF10 ≤ c.toNat) = false := decide_eq_false (by omega)
  have e5 : (c.toNat == 0xB2) = false := by simp only [beq_eq_false_iff_ne, ne_eq]; omega
  have e6 : (c.toNat == 0xB3) = false := by simp only [beq_eq_false_iff_ne, ne_eq]; omega
  have e7 : (c.toNat == 0xB9) = false := by simp only [beq_eq_false_iff_ne, ne_eq]; omega
  rw [e1, e2, e3, e4, e5, e6, e7]
  simp

/-- C2 (amended): strings of 10 ASCII digits are accepted and stored
unchanged; strings with a different length, or containing an ASCII non-digit
character, are rejected with the validation error.  (Length-10 strings of
non-ASCII Unicode digit characters are however also accepted, see the
counterexample.) -/
theorem phone_init_spec (s : String) :
    (s.data.all Char.isDigit = true → s.length = 10 → Phone.init s = .ok s)
  ∧ (s.length ≠ 10 → Phone.init s = .error phoneErr)
  ∧ ((∃ c ∈ s.data, c.toNat < 128 ∧ c.isDigit = false) → Phone.init s = .error phoneErr) := by
  refine ⟨?_, ?_, ?_⟩
  · intro hall hlen
    have hne : s.data.isEmpty = false := by
      cases hd : s.data
      · rw [length_eq_data_length, hd] at hlen; cases hlen
      · rfl
    have hdig : s.data.all pyIsDigitChar = true := by
      rw [List.all_eq_true] at hall ⊢
      intro c hc
      have := hall c hc
      unfold pyIsDigitChar
      simp [this]
    unfold Phone.init pyStrIsDigit
    rw [hne, hdig, hlen]
    simp
  · intro hlen
    unfold Phone.init
    have : (s.length != 10) = true := by simpa using hlen
    rw [this]
    simp
  · rintro ⟨c, hc, h128, hnd⟩
    have hpc : pyIsDigitChar c = false := by rw [pyIsDigitChar_ascii h128]; exact hnd
    have hall : s.data.all pyIsDigitChar = false := by
      by_contra hh
      have := List.all_eq_true.mp (eq_true_of_ne_false hh) c hc
      rw [hpc] at this; cases this
    unfold Phone.init pyStrIsDigit
    rw [hall]
    simp

/-- C2 (witness). -/
theorem phone_init_spec_witness :
    Phone.init "0123456789" = .ok "0123456789"
      ∧ Phone.init "123" = .error phoneErr
      ∧ Phone.init "12345678x9" = .error phoneErr := by
  refine ⟨(phone_init_spec "0123456789").1 (by decide) (by decide),
    (phone_init_spec "123").2.1 (by decide),
    (phone_init_spec "12345678x9").2.2 ⟨'x', by decide, by decide, by decide⟩⟩

/-! # Claim C3: `load_data` fallback -/

/-- C3 (counterexample): a file whose content cannot be deserialized makes
`pickle.load` raise `UnpicklingError`, which the `except FileNotFoundError`
clause does not catch — the error is surfaced, no empty store is returned. -/
theorem load_data_corrupt_raises :
    load_data FileContent.corrupt = .error "UnpicklingError" := rfl

/-- C3 (amended): a missing file, and content that deserializes to a value
that is not an `AddressBook`, both fall back to a freshly empty store; but an
unreadable file or content that cannot be deserialized at all raises an
uncaught error. -/
theorem load_data_fallback_spec :
    load_data .absent = .ok ([] : AddressBook)
  ∧ load_data (.pickled .other) = .ok ([] : AddressBook)
  ∧ load_data .corrupt = .error "UnpicklingError"
  ∧ load_data .unreadable = .error "PermissionError" :=
  ⟨rfl, rfl, rfl, rfl⟩

/-! # Claim C9: persistence round-trip -/

/-- C9: saving a store and loading it back yields the very same store — in
particular the same names, and each record the same phones and birthday. -/
theorem save_load_roundtrip (book : AddressBook) :
    load_data (save_data book) = .ok book := rfl

/-! # Claim C4: missing-argument behaviour -/

/-- C4 (counterexample): calling the add handler with no arguments returns
the `ValueError` message of the failed star-unpacking (caught by the
`except ValueError` branch of `input_error`), which is not the claimed
string `"Enter the argument for the command."` — that string (even apart
from its missing trailing period in the source) belongs to the unreachable
`IndexError` branch. -/
theorem missing_args_message_cex :
    (add_contact [] []).2 = "not enough values to unpack (expected at least 2, got 0)"
  ∧ (add_contact [] []).2 ≠ "Enter the argument for the command."
  ∧ (add_contact [] []).2 ≠ indexErrMsg := by
  refine ⟨by decide, by decide, by decide⟩

/-- C4 (amended): a handler invoked with fewer positional arguments than its
star-unpacking needs returns the unpack `ValueError` message
`"not enough values to unpack (expected at least N, got K)"`, leaves the book
unchanged, and raises nothing (the model functions are total). -/
theorem missing_args_unpack (book : AddressBook) (args : List String) :
    (args.length < 2 → add_contact args book = (book, unpackMsg 2 args.length))
  ∧ (args.length < 3 → change_contact args book = (book, unpackMsg 3 args.length))
  ∧ (args.length < 2 → add_birthday args book = (book, unpackMsg 2 args.length))
  ∧ (args.length < 1 → show_phone args book = (book, unpackMsg 1 args.length))
  ∧ (args.length < 1 → show_birthday args book = (book, unpackMsg 1 args.length)) := by
  rcases args with _ | ⟨a, _ | ⟨b, _ | ⟨c, t⟩⟩⟩ <;>
    refine ⟨?_, ?_, ?_, ?_, ?_⟩ <;> intro h <;>
    first
      | rfl
      | (exfalso; simp only [List.length_cons, List.length_nil] at h; omega)

/-- C4 (witness). -/
theorem missing_args_unpack_witness :
    add_contact ["bob"] [] = ([], unpackMsg 2 1)
  ∧ show_phone [] [] = ([], unpackMsg 1 0) :=
  ⟨(missing_args_unpack [] ["bob"]).1 (by decide),
   (missing_args_unpack [] []).2.2.2.1 (by decide)⟩

/-! # Claim C10: failed validation still creates the record -/

/-- C10: on an unknown (whitespace-free, non-empty) name, `add` with an
invalid non-empty phone and `add-birthday` with an invalid date string both
report the validator's error message, yet a fresh record for the name — with
no phones and no birthday — has already been appended to the store. -/
theorem invalid_value_still_creates_record (book : AddressBook) (name phone text : String)
    (hfind : findRec book name = none) (hstrip : pyStrip name = name) (hname : name ≠ "")
    (hphone : phone ≠ "") (hbadp : Phone.init phone = .error phoneErr)
    (hbadb : Birthday.init text = .error bdayErr) :
    add_contact [name, phone] book = (book ++ [⟨name, [], none⟩], phoneErr)
  ∧ add_birthday [name, text] book = (book ++ [⟨name, [], none⟩], bdayErr) := by
  have hrec : Record.init name = .ok ⟨name, [], none⟩ := Record.init_token hstrip hname
  have happ : add_record book ⟨name, [], none⟩ = book ++ [⟨name, [], none⟩] :=
    add_record_eq_append hfind
  constructor
  · simp only [add_contact, hfind, hrec, Record.add_phone, hbadp, happ]
    rw [if_pos hphone]
  · simp only [add_birthday, hfind, hrec, Record.add_birthday, hbadb, happ]

/-- C10 (witness). -/
theorem invalid_value_still_creates_record_witness :
    add_contact ["bob", "123"] [] = ([⟨"bob", [], none⟩], phoneErr)
  ∧ add_birthday ["bob", "tomorrow"] [] = ([⟨"bob", [], none⟩], bdayErr) :=
  invalid_value_still_creates_record [] "bob" "123" "tomorrow"
    (by decide) (by decide) (by decide) (by decide) (by decide) (by decide)

/-! # Claim C6: `edit_phone` -/

/-- With no phone equal to `old`, the loop reports failure and rebuilds the
list unchanged (in particular `new` is never validated). -/
theorem editPhoneList_not_mem {phones : List String} {old new : String}
    (h : old ∉ phones) : editPhoneList phones old new = .ok (false, phones) := by
  induction phones with
  | nil => rfl
  | cons p ps ih =>
    have hne : p ≠ old := fun hp => h (hp ▸ List.mem_cons_self p ps)
    have hmem : old ∉ ps := fun hm => h (List.mem_cons_of_mem p hm)
    simp only [editPhoneList]
    rw [if_neg hne, ih hmem]

/-- With `old` present and `new` a valid phone, the loop replaces exactly the
first occurrence. -/
theorem editPhoneList_first {old new : String} (hnew : Phone.init new = .ok new)
    (pre : List String) (post : List String) (hpre : old ∉ pre) :
    editPhoneList (pre ++ old :: post) old new = .ok (true, pre ++ new :: post) := by
  induction pre with
  | nil =>
    simp only [List.nil_append, editPhoneList]
    simp [hnew]
  | cons q pre ih =>
    have hne : q ≠ old := fun hq => hpre (hq ▸ List.mem_cons_self q pre)
    have hmem : old ∉ pre := fun hm => hpre (List.mem_cons_of_mem q hm)
    simp only [List.cons_append, editPhoneList, List.append_eq]
    rw [if_neg hne, ih hmem]

/-- C6: `edit_phone(old, new)` with no phone equal to `old` returns failure
and leaves the record (in particular its phone list) unchanged; with `old`
present and `new` a valid phone it replaces exactly the first occurrence,
preserving every other entry, the order and the length, and returns
success. -/
theorem edit_phone_spec (r : Record) (old new : String) :
    (old ∉ r.phones → r.edit_phone old new = .ok (false, r))
  ∧ (∀ pre post, r.phones = pre ++ old :: post → old ∉ pre →
      Phone.init new = .ok new →
      r.edit_phone old new = .ok (true, { r with phones := pre ++ new :: post })) := by
  constructor
  · intro h
    unfold Record.edit_phone
    rw [editPhoneList_not_mem h]
  · intro pre post hsplit hpre hnew
    unfold Record.edit_phone
    rw [hsplit, editPhoneList_first hnew pre post hpre]

/-- C6 (witness). -/
theorem edit_phone_spec_witness :
    Record.edit_phone ⟨"bob", ["0000000000", "1111111111"], none⟩ "2222222222" "3333333333"
      = .ok (false, ⟨"bob", ["0000000000", "1111111111"], none⟩)
  ∧ Record.edit_phone ⟨"bob", ["0000000000", "1111111111", "0000000000"], none⟩
      "1111111111" "2222222222"
      = .ok (true, ⟨"bob", ["0000000000", "2222222222", "0000000000"], none⟩) :=
  ⟨(edit_phone_spec ⟨"bob", ["0000000000", "1111111111"], none⟩ "2222222222" "3333333333").1
      (by decide),
   (edit_phone_spec ⟨"bob", ["0000000000", "1111111111", "0000000000"], none⟩
      "1111111111" "2222222222").2 ["0000000000"] ["0000000000"] rfl (by decide) (by decide)⟩

/-! # Claim C7: `add` on an unknown name, twice -/

/-- A valid phone is non-empty (it has 10 characters). -/
theorem Phone.init_ne_empty {p : String} (h : Phone.init p = .ok p) : p ≠ "" := by
  intro he
  have h10 := Phone.init_length h
  rw [he] at h10
  exact absurd h10 (by decide)

/-- C7: on a store without the (whitespace-free, non-empty) name, `add` with
a valid phone appends exactly one new record holding exactly that phone;
calling `add` again with the same name and another valid phone appends the
second phone to that same record, keeping the first one. -/
theorem add_contact_twice (book : AddressBook) (name p1 p2 : String)
    (hfind : findRec book name = none) (hstrip : pyStrip name = name) (hname : name ≠ "")
    (hp1 : Phone.init p1 = .ok p1) (hp2 : Phone.init p2 = .ok p2) :
    add_contact [name, p1] book = (book ++ [⟨name, [p1], none⟩], "Contact added.")
  ∧ add_contact [name, p2] (book ++ [⟨name, [p1], none⟩])
      = (book ++ [⟨name, [p1, p2], none⟩], "Contact updated.") := by
  have hp1ne : p1 ≠ "" := Phone.init_ne_empty hp1
  have hp2ne : p2 ≠ "" := Phone.init_ne_empty hp2
  have e1 : add_record book (⟨name, [], none⟩ : Record) = book ++ [⟨name, [], none⟩] :=
    add_record_eq_append hfind
  have e2 : add_record (book ++ [(⟨name, [], none⟩ : Record)]) ⟨name, [p1], none⟩
      = book ++ [⟨name, [p1], none⟩] := by
    rw [add_record_append _ hfind]
    simp [add_record]
  have e3 : add_record (book ++ [(⟨name, [p1], none⟩ : Record)]) ⟨name, [p1, p2], none⟩
      = book ++ [⟨name, [p1, p2], none⟩] := by
    rw [add_record_append _ hfind]
    simp [add_record]
  have hbf : findRec (book ++ [(⟨name, [p1], none⟩ : Record)]) name
      = some ⟨name, [p1], none⟩ := by
    rw [findRec_append _ hfind]
    simp [findRec]
  constructor
  · simp only [add_contact, hfind, Record.init_token hstrip hname, Record.add_phone, hp1,
      List.nil_append]
    rw [if_pos hp1ne, e1, e2]
  · simp only [add_contact, hbf, Record.add_phone, hp2, List.singleton_append]
    rw [if_pos hp2ne, e3]

/-- C7 (witness). -/
theorem add_contact_twice_witness :
    add_contact ["bob", "0000000000"] []
      = ([⟨"bob", ["0000000000"], none⟩], "Contact added.")
  ∧ add_contact ["bob", "1111111111"] [⟨"bob", ["0000000000"], none⟩]
      = ([⟨"bob", ["0000000000", "1111111111"], none⟩], "Contact updated.") :=
  add_contact_twice [] "bob" "0000000000" "1111111111"
    (by decide) (by decide) (by decide) (by decide) (by decide)

/-! # Claim C8: `Birthday` canonical round-trip -/

theorem digitChar_bounds (k : Nat) : '0' ≤ digitChar k ∧ digitChar k ≤ '9' := by
  unfold digitChar
  split <;> exact ⟨by decide, by decide⟩

theorem digitVal_digitChar {k : Nat} (h : k ≤ 9) : digitVal (digitChar k) = k := by
  interval_cases k <;> rfl

theorem pyIsReDigit_digitChar (k : Nat) : pyIsReDigit (digitChar k) = true := by
  unfold digitChar
  split <;> decide

theorem pyDigitVal_digitChar {k : Nat} (h : k ≤ 9) : pyDigitVal (digitChar k) = k := by
  interval_cases k <;> rfl

/-- For an ASCII character the modelled `\d` test agrees with the ASCII
digit test. -/
theorem pyIsReDigit_ascii {c : Char} (h : c.toNat < 128) :
    pyIsReDigit c = c.isDigit := by
  unfold pyIsReDigit
  have e1 : decide (0x660 ≤ c.toNat) = false := decide_eq_false (by omega)
  have e2 : decide (0x6F0 ≤ c.toNat) = false := decide_eq_false (by omega)
  have e3 : decide (0x966 ≤ c.toNat) = false := decide_eq_false (by omega)
  have e4 : decide (0xFF10 ≤ c.toNat) = false := decide_eq_false (by omega)
  rw [e1, e2, e3, e4]
  simp

/-- For an ASCII character the modelled `int()` digit value agrees with the
ASCII digit value. -/
theorem pyDigitVal_ascii {c : Char} (h : c.toNat < 128) :
    pyDigitVal c = digitVal c := by
  unfold pyDigitVal
  have e1 : decide (0x660 ≤ c.toNat) = false := decide_eq_false (by omega)
  have e2 : decide (0x6F0 ≤ c.toNat) = false := decide_eq_false (by omega)
  have e3 : decide (0x966 ≤ c.toNat) = false := decide_eq_false (by omega)
  have e4 : decide (0xFF10 ≤ c.toNat) = false := decide_eq_false (by omega)
  rw [e1, e2, e3, e4]
  simp

/-- An ASCII digit character is a `\d` character. -/
theorem pyIsReDigit_of_digit {c : Char} (h1 : '0' ≤ c) (h2 : c ≤ '9') :
    pyIsReDigit c = true := by
  have hd : c.isDigit = true := by
    simp only [Char.isDigit, Bool.and_eq_true, decide_eq_true_eq]
    exact ⟨h1, h2⟩
  unfold pyIsReDigit
  rw [hd]
  simp

/-- On an ASCII digit character `int()`'s digit value is the ASCII one. -/
theorem pyDigitVal_of_digit {c : Char} (h2 : c ≤ '9') :
    pyDigitVal c = digitVal c := by
  have h2n : c.toNat ≤ 57 := h2
  exact pyDigitVal_ascii (by omega)

/-- The bounds form of `Char.isDigit`. -/
theorem isDigit_bounds {c : Char} (h : c.isDigit = true) : '0' ≤ c ∧ c ≤ '9' := by
  simp only [Char.isDigit, Bool.and_eq_true, decide_eq_true_eq] at h
  exact h

theorem daysInMonth_le_31 (y m : Nat) : daysInMonth y m ≤ 31 := by
  unfold daysInMonth
  split_ifs <;> omega

theorem validDate_bounds {y m d : Nat} (h : validDate y m d = true) :
    1 ≤ y ∧ y ≤ 9999 ∧ 1 ≤ m ∧ m ≤ 12 ∧ 1 ≤ d ∧ d ≤ daysInMonth y m := by
  simp only [validDate, Bool.and_eq_true, decide_eq_true_eq] at h
  exact ⟨h.1.1.1.1.1, h.1.1.1.1.2, h.1.1.1.2, h.1.1.2, h.1.2, h.2⟩

/-- The regex day field parses a zero-padded two-digit rendering back. -/
theorem parseDay_pad2 (d : Nat) (h1 : 1 ≤ d) (h2 : d ≤ 31) (rest : List Char) :
    parseDay (pad2l d ++ rest) = some (d, rest) := by
  interval_cases d <;> rfl

/-- The regex month field parses a zero-padded two-digit rendering back. -/
theorem parseMonth_pad2 (m : Nat) (h1 : 1 ≤ m) (h2 : m ≤ 12) (rest : List Char) :
    parseMonth (pad2l m ++ rest) = some (m, rest) := by
  interval_cases m <;> rfl

/-- The regex year field parses a four-digit rendering back. -/
theorem parseYear_pad4 (y : Nat) (h : y ≤ 9999) (rest : List Char) :
    parseYear (pad4l y ++ rest) = some (y, rest) := by
  have e : pyDigitVal (digitChar (y / 1000 % 10)) * 1000
      + pyDigitVal (digitChar (y / 100 % 10)) * 100
      + pyDigitVal (digitChar (y / 10 % 10)) * 10 + pyDigitVal (digitChar (y % 10)) = y := by
    rw [pyDigitVal_digitChar (by omega), pyDigitVal_digitChar (by omega),
      pyDigitVal_digitChar (by omega), pyDigitVal_digitChar (by omega)]
    omega
  simp only [pad4l, List.cons_append, List.nil_append, parseYear]
  rw [if_pos ⟨pyIsReDigit_digitChar _, pyIsReDigit_digitChar _, pyIsReDigit_digitChar _,
    pyIsReDigit_digitChar _⟩, e]

theorem parseYear_pad4_nil (y : Nat) (h : y ≤ 9999) : parseYear (pad4l y) = some (y, []) := by
  have e := parseYear_pad4 y h []
  rw [List.append_nil] at e
  exact e

/-- The regex stage parses a canonical rendering back to its components. -/
theorem strptimeCore_canonical {y m d : Nat} (hd1 : 1 ≤ d) (hd2 : d ≤ 31)
    (hm1 : 1 ≤ m) (hm2 : m ≤ 12) (hy : y ≤ 9999) :
    strptimeCore (pad2l d ++ ('.' :: (pad2l m ++ ('.' :: pad4l y)))) = some (y, m, d) := by
  simp only [strptimeCore, parseDay_pad2 d hd1 hd2, parseMonth_pad2 m hm1 hm2,
    parseYear_pad4_nil y hy]

/-- Roundtrip: `strptime` inverts `strftime` on every valid date. -/
theorem strptime_canonical {y m d : Nat} (h : validDate y m d = true) :
    strptimeDMY (canonicalDMY y m d) = some (y, m, d) := by
  obtain ⟨hy1, hy2, hm1, hm2, hd1, hdm⟩ := validDate_bounds h
  have hd31 : d ≤ 31 := le_trans hdm (daysInMonth_le_31 y m)
  unfold strptimeDMY canonicalDMY
  rw [show (⟨pad2l d ++ ('.' :: (pad2l m ++ ('.' :: pad4l y)))⟩ : String).data
      = pad2l d ++ ('.' :: (pad2l m ++ ('.' :: pad4l y))) from rfl]
  rw [strptimeCore_canonical hd1 hd31 hm1 hm2 hy2]
  simp only [h, if_true]

/-- A parsed result always passes the `datetime` validity check. -/
theorem strptimeDMY_valid {s : String} {y m d : Nat}
    (h : strptimeDMY s = some (y, m, d)) : validDate y m d = true := by
  unfold strptimeDMY at h
  split at h
  next y' mo' d' heq =>
    split at h
    next hv =>
      injection h with h2
      injection h2 with e1 e2
      injection e2 with e2 e3
      subst e1; subst e2; subst e3
      exact hv
    next hv => cases h
  next heq => cases h

/-- A successful `Birthday.__init__` stores the canonical rendering of the
parsed, valid date. -/
theorem birthday_init_ok {s b : String} (h : Birthday.init s = .ok b) :
    ∃ y m d, strptimeDMY s = some (y, m, d) ∧ b = canonicalDMY y m d
      ∧ validDate y m d = true := by
  unfold Birthday.init at h
  cases hs : strptimeDMY s with
  | none => rw [hs] at h; cases h
  | some t =>
    obtain ⟨y, m, d⟩ := t
    rw [hs] at h
    injection h with h
    exact ⟨y, m, d, rfl, h.symm, strptimeDMY_valid hs⟩

/-- C8: the stored value of a successfully constructed `Birthday` re-parses
(`as_date`) to a calendar date whose canonical `DD.MM.YYYY` rendering is the
stored value again. -/
theorem birthday_roundtrip (s b : String) (h : Birthday.init s = .ok b) :
    ∃ y m d, Birthday.as_date b = some (y, m, d) ∧ canonicalDMY y m d = b := by
  obtain ⟨y, m, d, _, hb, hv⟩ := birthday_init_ok h
  refine ⟨y, m, d, ?_, hb.symm⟩
  rw [hb]
  exact strptime_canonical hv

/-- C8 (witness). -/
theorem birthday_roundtrip_witness :
    ∃ y m d, Birthday.as_date "11.10.2025" = some (y, m, d)
      ∧ canonicalDMY y m d = "11.10.2025" :=
  birthday_roundtrip "11.10.2025" "11.10.2025" (by decide)

/-! # Claim C5: `Birthday` input format

The declarative transcription of the `_strptime` regular expression for
`"%d.%m.%Y"`, used to characterise which strings `Birthday.__init__`
accepts. -/

/-- The strings (with value) matched by the day field
`3[0-1]|[1-2]\d|0[1-9]|[1-9]| [1-9]`. -/
def DayShape (cs : List Char) (d : Nat) : Prop :=
  (∃ c1 c2, cs = [c1, c2] ∧ d = digitVal c1 * 10 + digitVal c2 ∧
    ((c1 = '3' ∧ (c2 = '0' ∨ c2 = '1'))
      ∨ ((c1 = '1' ∨ c1 = '2') ∧ ('0' ≤ c2 ∧ c2 ≤ '9'))
      ∨ (c1 = '0' ∧ ('1' ≤ c2 ∧ c2 ≤ '9'))))
  ∨ (∃ c, cs = [c] ∧ d = digitVal c ∧ '1' ≤ c ∧ c ≤ '9')
  ∨ (∃ c, cs = [' ', c] ∧ d = digitVal c ∧ '1' ≤ c ∧ c ≤ '9')

/-- The strings (with value) matched by the month field `1[0-2]|0[1-9]|[1-9]`. -/
def MonthShape (cs : List Char) (m : Nat) : Prop :=
  (∃ c2, cs = ['1', c2] ∧ m = 10 + digitVal c2 ∧ (c2 = '0' ∨ c2 = '1' ∨ c2 = '2'))
  ∨ (∃ c2, cs = ['0', c2] ∧ m = digitVal c2 ∧ '1' ≤ c2 ∧ c2 ≤ '9')
  ∨ (∃ c, cs = [c] ∧ m = digitVal c ∧ '1' ≤ c ∧ c ≤ '9')

/-- The strings (with value) matched by the year field `\d\d\d\d`. -/
def YearShape (cs : List Char) (y : Nat) : Prop :=
  ∃ c1 c2 c3 c4, cs = [c1, c2, c3, c4]
    ∧ ('0' ≤ c1 ∧ c1 ≤ '9') ∧ ('0' ≤ c2 ∧ c2 ≤ '9') ∧ ('0' ≤ c3 ∧ c3 ≤ '9')
    ∧ ('0' ≤ c4 ∧ c4 ≤ '9')
    ∧ y = digitVal c1 * 1000 + digitVal c2 * 100 + digitVal c3 * 10 + digitVal c4

/-- The strings (with component values) matched by the whole format
`day.month.year`. -/
def DMYShape (cs : List Char) (y m d : Nat) : Prop :=
  ∃ dcs mcs ycs, cs = dcs ++ ('.' :: (mcs ++ ('.' :: ycs)))
    ∧ DayShape dcs d ∧ MonthShape mcs m ∧ YearShape ycs y

theorem parseDay_sound {cs rest : List Char} {d : Nat}
    (hA : ∀ c ∈ cs, c.toNat < 128)
    (h : parseDay cs = some (d, rest)) : ∃ dcs, cs = dcs ++ rest ∧ DayShape dcs d := by
  rcases cs with _ | ⟨c1, _ | ⟨c2, rest'⟩⟩
  · cases h
  · simp only [parseDay] at h
    split_ifs at h with h1
    injection h with h2
    injection h2 with e1 e2
    subst e1; subst e2
    exact ⟨[c1], by simp, Or.inr (Or.inl ⟨c1, rfl, rfl, h1.1, h1.2⟩)⟩
  · simp only [parseDay] at h
    split_ifs at h with h1 h2 h3 h4 h5 <;>
      (injection h with h0; injection h0 with e1 e2; subst e1; subst e2)
    · exact ⟨[c1, c2], rfl, Or.inl ⟨c1, c2, rfl, rfl, Or.inl h1⟩⟩
    · have hlt : c2.toNat < 128 := hA c2 (by simp)
      have hb := isDigit_bounds (by rw [← pyIsReDigit_ascii hlt]; exact h2.2)
      exact ⟨[c1, c2], rfl, Or.inl ⟨c1, c2, rfl, by rw [pyDigitVal_ascii hlt],
        Or.inr (Or.inl ⟨h2.1, hb⟩)⟩⟩
    · exact ⟨[c1, c2], rfl, Or.inl ⟨c1, c2, rfl, rfl, Or.inr (Or.inr h3)⟩⟩
    · exact ⟨[c1], rfl, Or.inr (Or.inl ⟨c1, rfl, rfl, h4.1, h4.2⟩)⟩
    · obtain ⟨rfl, hc⟩ := h5
      exact ⟨[' ', c2], rfl, Or.inr (Or.inr ⟨c2, rfl, rfl, hc.1, hc.2⟩)⟩

theorem parseDay_complete {dcs : List Char} {d : Nat} (h : DayShape dcs d)
    (tail : List Char) : parseDay (dcs ++ '.' :: tail) = some (d, '.' :: tail) := by
  rcases h with ⟨c1, c2, rfl, rfl, hcase⟩ | ⟨c, rfl, rfl, hc1, hc2⟩ | ⟨c, rfl, rfl, hc1, hc2⟩
  · simp only [List.cons_append, List.nil_append, parseDay]
    rcases hcase with ⟨rfl, hc2⟩ | ⟨hc1, hc2⟩ | ⟨rfl, hc2⟩
    · rw [if_pos ⟨rfl, hc2⟩]
    · rw [if_neg (fun hh => by rcases hc1 with rfl | rfl <;> exact absurd hh.1 (by decide)),
        if_pos ⟨hc1, pyIsReDigit_of_digit hc2.1 hc2.2⟩, pyDigitVal_of_digit hc2.2]
    · rw [if_neg (fun hh => absurd hh.1 (by decide)),
        if_neg (fun hh => by rcases hh.1 with h | h <;> exact absurd h (by decide)),
        if_pos ⟨rfl, hc2⟩]
  · simp only [List.cons_append, List.nil_append, parseDay]
    rw [if_neg (fun hh => by rcases hh.2 with h | h <;> exact absurd h (by decide)),
      if_neg (fun hh => absurd hh.2 (by decide)),
      if_neg (fun hh => absurd hh.2.1 (by decide)),
      if_pos ⟨hc1, hc2⟩]
  · simp only [List.cons_append, List.nil_append, parseDay]
    rw [if_neg (fun hh => absurd hh.1 (by decide)),
      if_neg (fun hh => by rcases hh.1 with h | h <;> exact absurd h (by decide)),
      if_neg (fun hh => absurd hh.1 (by decide)),
      if_neg (fun hh => absurd hh.1 (by decide)),
      if_pos ⟨trivial, hc1, hc2⟩]

theorem parseMonth_sound {cs rest : List Char} {m : Nat}
    (h : parseMonth cs = some (m, rest)) : ∃ mcs, cs = mcs ++ rest ∧ MonthShape mcs m := by
  rcases cs with _ | ⟨c1, _ | ⟨c2, rest'⟩⟩
  · cases h
  · simp only [parseMonth] at h
    split_ifs at h with h1
    injection h with h2
    injection h2 with e1 e2
    subst e1; subst e2
    exact ⟨[c1], by simp, Or.inr (Or.inr ⟨c1, rfl, rfl, h1.1, h1.2⟩)⟩
  · simp only [parseMonth] at h
    split_ifs at h with h1 h2 h3 <;>
      (injection h with h0; injection h0 with e1 e2; subst e1; subst e2)
    · obtain ⟨rfl, hc⟩ := h1
      exact ⟨['1', c2], rfl, Or.inl ⟨c2, rfl, rfl, hc⟩⟩
    · obtain ⟨rfl, hc⟩ := h2
      exact ⟨['0', c2], rfl, Or.inr (Or.inl ⟨c2, rfl, rfl, hc.1, hc.2⟩)⟩
    · exact ⟨[c1], rfl, Or.inr (Or.inr ⟨c1, rfl, rfl, h3.1, h3.2⟩)⟩

theorem parseMonth_complete {mcs : List Char} {m : Nat} (h : MonthShape mcs m)
    (tail : List Char) : parseMonth (mcs ++ '.' :: tail) = some (m, '.' :: tail) := by
  rcases h with ⟨c2, rfl, rfl, hc⟩ | ⟨c2, rfl, rfl, hc1, hc2⟩ | ⟨c, rfl, rfl, hc1, hc2⟩
  · rcases hc with rfl | rfl | rfl <;> rfl
  · simp only [List.cons_append, List.nil_append, parseMonth]
    rw [if_neg (fun hh => absurd hh.1 (by decide)), if_pos ⟨trivial, hc1, hc2⟩]
  · simp only [List.cons_append, List.nil_append, parseMonth]
    rw [if_neg (fun hh => by rcases hh.2 with h | h | h <;> exact absurd h (by decide)),
      if_neg (fun hh => absurd hh.2.1 (by decide)),
      if_pos ⟨hc1, hc2⟩]

theorem parseYear_sound {cs rest : List Char} {y : Nat}
    (hA : ∀ c ∈ cs, c.toNat < 128)
    (h : parseYear cs = some (y, rest)) : ∃ ycs, cs = ycs ++ rest ∧ YearShape ycs y := by
  rcases cs with _ | ⟨c1, _ | ⟨c2, _ | ⟨c3, _ | ⟨c4, rest'⟩⟩⟩⟩
  · cases h
  · cases h
  · cases h
  · cases h
  · simp only [parseYear] at h
    split_ifs at h with h1
    injection h with h0
    injection h0 with e1 e2
    subst e1; subst e2
    have l1 : c1.toNat < 128 := hA c1 (by simp)
    have l2 : c2.toNat < 128 := hA c2 (by simp)
    have l3 : c3.toNat < 128 := hA c3 (by simp)
    have l4 : c4.toNat < 128 := hA c4 (by simp)
    have b1 := isDigit_bounds (by rw [← pyIsReDigit_ascii l1]; exact h1.1)
    have b2 := isDigit_bounds (by rw [← pyIsReDigit_ascii l2]; exact h1.2.1)
    have b3 := isDigit_bounds (by rw [← pyIsReDigit_ascii l3]; exact h1.2.2.1)
    have b4 := isDigit_bounds (by rw [← pyIsReDigit_ascii l4]; exact h1.2.2.2)
    exact ⟨[c1, c2, c3, c4], rfl,
      ⟨c1, c2, c3, c4, rfl, b1, b2, b3, b4,
        by rw [pyDigitVal_ascii l1, pyDigitVal_ascii l2, pyDigitVal_ascii l3,
          pyDigitVal_ascii l4]⟩⟩

theorem parseYear_complete {ycs : List Char} {y : Nat} (h : YearShape ycs y) :
    parseYear ycs = some (y, []) := by
  obtain ⟨c1, c2, c3, c4, rfl, h1, h2, h3, h4, rfl⟩ := h
  simp only [parseYear]
  rw [if_pos ⟨pyIsReDigit_of_digit h1.1 h1.2, pyIsReDigit_of_digit h2.1 h2.2,
      pyIsReDigit_of_digit h3.1 h3.2, pyIsReDigit_of_digit h4.1 h4.2⟩,
    pyDigitVal_of_digit h1.2, pyDigitVal_of_digit h2.2, pyDigitVal_of_digit h3.2,
    pyDigitVal_of_digit h4.2]

/-- The regex stage succeeds exactly on the strings of `DMYShape`, for ASCII
inputs (on which the modelled digit classes are exact). -/
theorem strptimeCore_iff {cs : List Char} {y m d : Nat}
    (hA : ∀ c ∈ cs, c.toNat < 128) :
    strptimeCore cs = some (y, m, d) ↔ DMYShape cs y m d := by
  constructor
  · intro h
    unfold strptimeCore at h
    split at h
    next d0 rest2 heq1 =>
      split at h
      next mo0 rest4 heq2 =>
        split at h
        next y0 heq3 =>
          injection h with h0
          injection h0 with e1 e2
          injection e2 with e2 e3
          subst e1; subst e2; subst e3
          obtain ⟨dcs, hcs, hd⟩ := parseDay_sound hA heq1
          obtain ⟨mcs, hrest2, hm⟩ := parseMonth_sound heq2
          have hA4 : ∀ c ∈ rest4, c.toNat < 128 := by
            intro c hc
            apply hA
            rw [hcs, hrest2]
            simp [hc]
          obtain ⟨ycs, hrest4, hy⟩ := parseYear_sound hA4 heq3
          rw [List.append_nil] at hrest4
          subst hrest4
          exact ⟨dcs, mcs, rest4, by rw [hcs, hrest2], hd, hm, hy⟩
        next heq3 => cases h
      next heq2 => cases h
    next heq1 => cases h
  · rintro ⟨dcs, mcs, ycs, rfl, hd, hm, hy⟩
    simp only [strptimeCore, parseDay_complete hd (mcs ++ ('.' :: ycs)),
      parseMonth_complete hm ycs, parseYear_complete hy]

/-- Characterization: `strptime` succeeds exactly on shape-matching, calendar-valid strings. -/
theorem strptimeDMY_some_iff {s : String} {y m d : Nat} :
    strptimeDMY s = some (y, m, d)
      ↔ strptimeCore s.data = some (y, m, d) ∧ validDate y m d = true := by
  constructor
  · intro h
    unfold strptimeDMY at h
    split at h
    next y0 mo0 d0 heq =>
      split at h
      next hv =>
        injection h with h0
        injection h0 with e1 e2
        injection e2 with e2 e3
        subst e1; subst e2; subst e3
        exact ⟨heq, hv⟩
      next hv => cases h
    next heq => cases h
  · rintro ⟨hc, hv⟩
    unfold strptimeDMY
    rw [hc]
    simp only [hv, if_true]

/-- C5 (counterexample): day and month need not be zero-padded two-digit
fields — `strptime("%d.%m.%Y")` also accepts single-digit (and space-padded)
day and month, so `Birthday` construction succeeds on `"5.1.2000"` (and
`" 5.1.2000"`), normalizing to the canonical form, where the claim requires
failure.  Moreover the `\d` positions of the format's regex (the four year
digits, and the second digit of a day starting with 1 or 2) also match
non-ASCII Unicode decimal digits, which `int()` then parses, so
`"05.01.٢٠٠٠"` (Arabic-Indic year 2000) and `"1٢.01.2000"` (day `1٢` = 12)
are accepted as well. -/
theorem birthday_accepts_unpadded_and_unicode :
    Birthday.init "5.1.2000" = .ok "05.01.2000"
  ∧ Birthday.init " 5.1.2000" = .ok "05.01.2000"
  ∧ Birthday.init "05.01.٢٠٠٠" = .ok "05.01.2000"
  ∧ Birthday.init "1٢.01.2000" = .ok "12.01.2000" := by
  refine ⟨by decide, by decide, by decide, by decide⟩

/-- C5 (amended): for strings of ASCII characters, `Birthday` construction
succeeds — storing the zero-padded canonical `DD.MM.YYYY` rendering of the
parsed date — exactly on strings `day.month.year` where the day matches
`3[0-1]|[1-2][0-9]|0[1-9]|[1-9]| [1-9]`, the month matches
`1[0-2]|0[1-9]|[1-9]`, the year is exactly four digits, and the three
components form a real calendar date; otherwise it fails with the validation
error.  (The iff is stated for ASCII inputs because the `\d` positions also
accept non-ASCII Unicode decimal digits, see the counterexample.) -/
theorem birthday_init_characterization (s b : String)
    (hA : ∀ c ∈ s.data, c.toNat < 128) :
    (Birthday.init s = .ok b
      ↔ ∃ y m d, DMYShape s.data y m d ∧ validDate y m d = true
          ∧ b = canonicalDMY y m d)
  ∧ (Birthday.init s = .error bdayErr
      ↔ ¬ ∃ y m d, DMYShape s.data y m d ∧ validDate y m d = true) := by
  have hok : ∀ y m d, DMYShape s.data y m d → validDate y m d = true →
      Birthday.init s = .ok (canonicalDMY y m d) := by
    intro y m d hsh hv
    have hs : strptimeDMY s = some (y, m, d) :=
      strptimeDMY_some_iff.mpr ⟨(strptimeCore_iff hA).mpr hsh, hv⟩
    unfold Birthday.init
    rw [hs]
  constructor
  · constructor
    · intro h
      obtain ⟨y, m, d, hs, hb, hv⟩ := birthday_init_ok h
      exact ⟨y, m, d, (strptimeCore_iff hA).mp (strptimeDMY_some_iff.mp hs).1, hv, hb⟩
    · rintro ⟨y, m, d, hsh, hv, rfl⟩
      exact hok y m d hsh hv
  · constructor
    · rintro herr ⟨y, m, d, hsh, hv⟩
      rw [hok y m d hsh hv] at herr
      cases herr
    · intro hn
      unfold Birthday.init
      cases hs : strptimeDMY s with
      | none => rfl
      | some t =>
        obtain ⟨y, m, d⟩ := t
        exfalso
        exact hn ⟨y, m, d, (strptimeCore_iff hA).mp (strptimeDMY_some_iff.mp hs).1,
          (strptimeDMY_some_iff.mp hs).2⟩

/-- C5 (witness). -/
theorem birthday_init_characterization_witness :
    ∃ y m d, DMYShape ("31.12.1999").data y m d ∧ validDate y m d = true
      ∧ "31.12.1999" = canonicalDMY y m d :=
  ((birthday_init_characterization "31.12.1999" "31.12.1999" (by decide)).1).mp (by decide)

/-! # Claim C1: `get_upcoming_birthdays` -/

/-- The year whose occurrence of the birthday the code keeps: this year's
month/day, or next year's if this year's has already passed relative to
today. -/
def occYear (ty tm td bm bd : Nat) : Nat :=
  if toOrd ty bm bd < toOrd ty tm td then ty + 1 else ty

/-- The claim's per-record condition: record `r` has a birthday whose kept
occurrence falls in the half-open window `[today, today + 7 days)`, and `k`
is the weekday name of the weekend-shifted occurrence. -/
def keptUnder (ty tm td : Nat) (r : Record) (k name : String) : Prop :=
  r.name = name ∧ ∃ s y bm bd, r.birthday = some s ∧ strptimeDMY s = some (y, bm, bd)
    ∧ toOrd ty tm td ≤ toOrd (occYear ty tm td bm bd) bm bd
    ∧ toOrd (occYear ty tm td bm bd) bm bd < toOrd ty tm td + 7
    ∧ k = weekdayName (toOrd (occYear ty tm td bm bd) bm bd
        + weekendShift (toOrd (occYear ty tm td bm bd) bm bd))

theorem bucketLookup_setdefaultAppend (mm : List (String × List String)) (k0 v k : String) :
    bucketLookup (setdefaultAppend mm k0 v) k
      = if k0 = k then some (((bucketLookup mm k).getD []) ++ [v]) else bucketLookup mm k := by
  induction mm with
  | nil =>
    by_cases hk : k0 = k
    · subst hk
      simp [setdefaultAppend, bucketLookup]
    · simp [setdefaultAppend, bucketLookup, hk]
  | cons p rest ih =>
    obtain ⟨k1, vs⟩ := p
    by_cases h1 : k1 = k0
    · subst h1
      have hS : setdefaultAppend ((k1, vs) :: rest) k1 v = (k1, vs ++ [v]) :: rest := by
        simp [setdefaultAppend]
      rw [hS]
      by_cases hk : k1 = k
      · have hL : bucketLookup ((k1, vs ++ [v]) :: rest) k = some (vs ++ [v]) := by
          simp [bucketLookup, hk]
        have hR : bucketLookup ((k1, vs) :: rest) k = some vs := by
          simp [bucketLookup, hk]
        rw [hL, hR, if_pos hk]
        rfl
      · have hL : bucketLookup ((k1, vs ++ [v]) :: rest) k = bucketLookup rest k := by
          simp [bucketLookup, hk]
        have hR : bucketLookup ((k1, vs) :: rest) k = bucketLookup rest k := by
          simp [bucketLookup, hk]
        rw [hL, hR, if_neg hk]
    · simp only [setdefaultAppend, if_neg h1]
      by_cases hk : k1 = k
      · have hL : bucketLookup ((k1, vs) :: setdefaultAppend rest k0 v) k = some vs := by
          simp [bucketLookup, hk]
        have hR : bucketLookup ((k1, vs) :: rest) k = some vs := by
          simp [bucketLookup, hk]
        rw [hL, hR, if_neg (fun hh => h1 (hk ▸ hh.symm))]
      · have hL : bucketLookup ((k1, vs) :: setdefaultAppend rest k0 v) k
            = bucketLookup (setdefaultAppend rest k0 v) k := by
          simp [bucketLookup, hk]
        have hR : bucketLookup ((k1, vs) :: rest) k = bucketLookup rest k := by
          simp [bucketLookup, hk]
        rw [hL, hR, ih]

theorem inBucket_setdefaultAppend (mm : List (String × List String))
    (k0 v k name : String) :
    inBucket (setdefaultAppend mm k0 v) k name
      ↔ (k = k0 ∧ name = v) ∨ inBucket mm k name := by
  unfold inBucket
  rw [bucketLookup_setdefaultAppend]
  by_cases hk : k0 = k
  · rw [if_pos hk]
    cases hb : bucketLookup mm k with
    | none =>
      simp only [Option.getD_none, List.nil_append]
      constructor
      · rintro ⟨vs, hvs, hmem⟩
        injection hvs with e
        subst e
        exact Or.inl ⟨hk.symm, List.mem_singleton.mp hmem⟩
      · rintro (⟨hk2, hv2⟩ | ⟨vs, hvs, hmem⟩)
        · exact ⟨[v], rfl, by rw [hv2]; exact List.mem_singleton.mpr rfl⟩
        · cases hvs
    | some vs0 =>
      simp only [Option.getD_some]
      constructor
      · rintro ⟨vs, hvs, hmem⟩
        injection hvs with e
        subst e
        rcases List.mem_append.mp hmem with hmem | hmem
        · exact Or.inr ⟨vs0, rfl, hmem⟩
        · exact Or.inl ⟨hk.symm, List.mem_singleton.mp hmem⟩
      · rintro (⟨hk2, hv2⟩ | ⟨vs, hvs, hmem⟩)
        · exact ⟨vs0 ++ [v], rfl,
            List.mem_append.mpr (Or.inr (by rw [hv2]; exact List.mem_singleton.mpr rfl))⟩
        · injection hvs with e
          subst e
          exact ⟨vs0 ++ [v], rfl, List.mem_append.mpr (Or.inl hmem)⟩
  · rw [if_neg hk]
    constructor
    · rintro ⟨vs, hvs, hmem⟩
      exact Or.inr ⟨vs, hvs, hmem⟩
    · rintro (⟨hk2, hv2⟩ | ⟨vs, hvs, hmem⟩)
      · exact absurd hk2.symm hk
      · exact ⟨vs, hvs, hmem⟩

theorem gubStep_spec {ty tm td : Nat} {acc acc2 : List (String × List String)}
    {r : Record} (h : gubStep ty tm td acc r = some acc2) (k name : String) :
    inBucket acc2 k name ↔ keptUnder ty tm td r k name ∨ inBucket acc k name := by
  simp only [gubStep] at h
  split at h
  next hbd =>
    injection h with h
    subst h
    simp only [keptUnder, hbd]
    constructor
    · exact Or.inr
    · rintro (⟨_, s, y, bm, bd, hb, _⟩ | hacc)
      · cases hb
      · exact hacc
  next s hbd =>
    split at h
    next hparse => cases h
    next y0 bm bd hparse =>
      split at h
      next hval =>
        split at h
        next hocc => cases h
        next oy hocc =>
          have hoy : oy = occYear ty tm td bm bd := by
            unfold occYear
            by_cases hcmp : toOrd ty bm bd < toOrd ty tm td
            · rw [if_pos hcmp] at hocc
              rw [if_pos hcmp]
              by_cases hv2 : validDate (ty + 1) bm bd = true
              · rw [if_pos hv2] at hocc
                injection hocc with e
                exact e.symm
              · rw [if_neg hv2] at hocc
                cases hocc
            · rw [if_neg hcmp] at hocc
              rw [if_neg hcmp]
              injection hocc with e
              exact e.symm
          subst hoy
          split at h
          next hwin =>
            injection h with h
            subst h
            rw [inBucket_setdefaultAppend]
            constructor
            · rintro (⟨hk, hn⟩ | hacc)
              · exact Or.inl ⟨hn.symm, s, y0, bm, bd, hbd, hparse, hwin.1, hwin.2, hk⟩
              · exact Or.inr hacc
            · rintro (⟨hname, s2, y2, bm2, bd2, hb2, hp2, w1, w2, hk2⟩ | hacc)
              · rw [hbd] at hb2
                injection hb2 with hb2
                subst hb2
                rw [hparse] at hp2
                injection hp2 with hp2
                injection hp2 with e1 e2
                injection e2 with e2 e3
                subst e2
                subst e3
                exact Or.inl ⟨hk2, hname.symm⟩
              · exact Or.inr hacc
          next hwin =>
            injection h with h
            subst h
            constructor
            · exact Or.inr
            · rintro (⟨hname, s2, y2, bm2, bd2, hb2, hp2, w1, w2, hk2⟩ | hacc)
              · rw [hbd] at hb2
                injection hb2 with hb2
                subst hb2
                rw [hparse] at hp2
                injection hp2 with hp2
                injection hp2 with e1 e2
                injection e2 with e2 e3
                subst e2
                subst e3
                exact absurd ⟨w1, w2⟩ hwin
              · exact hacc
      next hval => cases h

theorem gubGo_spec (ty tm td : Nat) (rs : List Record) :
    ∀ acc res : List (String × List String), gubGo ty tm td rs acc = some res →
    ∀ k name, inBucket res k name
      ↔ inBucket acc k name ∨ ∃ r ∈ rs, keptUnder ty tm td r k name := by
  induction rs with
  | nil =>
    intro acc res h k name
    simp only [gubGo] at h
    injection h with h
    subst h
    simp
  | cons r rs ih =>
    intro acc res h k name
    simp only [gubGo] at h
    split at h
    next hstep => cases h
    next acc2 hstep =>
      rw [ih acc2 res h k name, gubStep_spec hstep k name]
      simp only [List.mem_cons]
      constructor
      · rintro ((hkept | hacc) | ⟨r2, hr2, hkept2⟩)
        · exact Or.inr ⟨r, Or.inl rfl, hkept⟩
        · exact Or.inl hacc
        · exact Or.inr ⟨r2, Or.inr hr2, hkept2⟩
      · rintro (hacc | ⟨r2, (rfl | hr2), hkept2⟩)
        · exact Or.inl (Or.inr hacc)
        · exact Or.inl (Or.inl hkept2)
        · exact Or.inr ⟨r2, hr2, hkept2⟩

/-- C1: whenever `get_upcoming_birthdays` returns (it can instead raise, e.g.
for a Feb 29 birthday reconstructed against a non-leap year), the returned
mapping contains `name` under weekday name `k` exactly when some record of
the book is named `name` and has a birthday whose kept occurrence — this
year's month/day, or next year's when this year's has already passed — falls
in the half-open window `[today, today + 7 days)`, with `k` the weekday name
of that occurrence shifted by 2 days if it lands on Saturday and 1 day if it
lands on Sunday. -/
theorem get_upcoming_birthdays_correct (book : AddressBook) (ty tm td : Nat)
    (m : List (String × List String)) (_hvalid : validDate ty tm td = true)
    (h : get_upcoming_birthdays book ty tm td = some m) :
    ∀ k name, inBucket m k name ↔ ∃ r ∈ book, keptUnder ty tm td r k name := by
  intro k name
  unfold get_upcoming_birthdays at h
  split_ifs at h with hmax
  rw [gubGo_spec ty tm td book [] m h k name]
  simp [inBucket, bucketLookup]

/-- C1 (witness): today is Wednesday 2025-10-08; the single contact's
birthday 11.10.2025 falls on the Saturday inside the window and is reported
under Monday. -/
theorem get_upcoming_birthdays_correct_witness :
    inBucket [("Monday", ["bob"])] "Monday" "bob" :=
  ((get_upcoming_birthdays_correct [⟨"bob", [], some "11.10.2025"⟩] 2025 10 8
      [("Monday", ["bob"])] (by decide) (by decide)) "Monday" "bob").mpr
    ⟨⟨"bob", [], some "11.10.2025"⟩, by simp, rfl, "11.10.2025", 2025, 10, 11, rfl,
      by decide, by decide, by decide, by decide⟩

end ContactBot
